import Mathlib

/-!
Verification of the `authentication` middleware of the ocm-sdk-go repository:
a shallow embedding of the JWT authentication HTTP handler (builder validation,
JSON web key set loading, key selection with rate-limited reload, claim-shape
checks, ACL matching, request dispatch and structured 401 error responses),
together with theorems settling the specification claims about it.

External collaborators (the Go standard library, the JWT library, the logger
and the error-object builder) are modelled either by small faithful functions
(base64url decoding, `strings.EqualFold`, the bearer regular expression) or by
explicit environment records carrying the results of I/O actions, so that the
control flow of the repository's own code is translated verbatim.
-/

set_option autoImplicit false

namespace OCMAuth

/-- JSON-typed values as produced by decoding a token payload or header with
Go's `encoding/json` into `map[string]interface{}`: strings, numbers (always
`float64`, modelled as rationals), booleans, null, arrays and objects. -/
inductive JVal where
  | str (s : String)
  | num (x : Rat)
  | bool (b : Bool)
  | null
  | arr (xs : List JVal)
  | obj (fields : List (String × JVal))

/-- A string-keyed claim (or header) mapping; keys are unique, lookup returns
the first binding. -/
abbrev Claims := List (String × JVal)

/-- Lookup of a claim by name, mirroring Go map indexing `claims[name]`. -/
def lookupClaim (claims : Claims) (name : String) : Option JVal :=
  (claims.find? (fun p => p.1 == name)).map Prod.snd

/-- ASCII lower-casing of one character. -/
def foldChar (c : Char) : Char :=
  if 'A' ≤ c ∧ c ≤ 'Z' then Char.ofNat (c.toNat + 32) else c

/-- Models `strings.EqualFold` of the Go standard library. The model folds
ASCII letters only, which is exact for every string the handler compares
("Bearer", "https", "RSA"). -/
def eqFold (s t : String) : Bool :=
  s.toList.map foldChar == t.toList.map foldChar

/-- Models the `%T` verb of Go's `fmt` package on values decoded from JSON:
the dynamic type names produced by `encoding/json` for `interface{}` values. -/
def goType : JVal → String
  | JVal.str _ => "string"
  | JVal.num _ => "float64"
  | JVal.bool _ => "bool"
  | JVal.null => "<nil>"
  | JVal.arr _ => "[]interface \x7b\x7d"
  | JVal.obj _ => "map[string]interface \x7b\x7d"

/-- Models the `%v` verb of Go's `fmt` package on values decoded from JSON.
The exact rendering of numbers and composites is immaterial to every property
proved below (only the surrounding message text matters). -/
def goFmtV : JVal → String
  | JVal.str s => s
  | JVal.num x => toString x
  | JVal.bool b => if b then "true" else "false"
  | JVal.null => "<nil>"
  | JVal.arr _ => "[...]"
  | JVal.obj _ => "map[...]"

/-- Truncation of a rational toward zero, modelling Go's `float64` to `int64`
conversion used by `time.Unix(int64(seconds), 0)`. -/
def ratTrunc (x : Rat) : Int :=
  x.num.tdiv (x.den : Int)

/-- One key record of a JSON web key set document, as unmarshalled into the
`keyData` struct (missing JSON fields decode to the empty string). -/
structure KeyData where
  kid : String
  kty : String
  alg : String
  use : String
  n : String
  e : String
deriving DecidableEq

/-- An RSA public key as built by `parseKey`: modulus and exponent. -/
structure RSAKey where
  n : Nat
  e : Int
deriving DecidableEq

/-- The key store: a mapping from key identifier to key, modelling the
`sync.Map` held by the handler. -/
abbrev KeyMap := List (String × RSAKey)

/-- Models `sync.Map.Load`. -/
def KeyMap.load (m : KeyMap) (kid : String) : Option RSAKey :=
  (m.find? (fun p => p.1 == kid)).map Prod.snd

/-- Models `sync.Map.Store`: unconditional overwrite of an existing entry with
the same identifier, otherwise insertion. -/
def KeyMap.store : KeyMap → String → RSAKey → KeyMap
  | [], kid, k => [(kid, k)]
  | (kid0, k0) :: rest, kid, k =>
    if kid0 == kid then (kid, k) :: rest
    else (kid0, k0) :: KeyMap.store rest kid k

/-- Value of one character of the base64url alphabet used by
`base64.RawURLEncoding`. -/
def b64Val (c : Char) : Option Nat :=
  if 'A' ≤ c ∧ c ≤ 'Z' then some (c.toNat - 65)
  else if 'a' ≤ c ∧ c ≤ 'z' then some (c.toNat - 97 + 26)
  else if '0' ≤ c ∧ c ≤ '9' then some (c.toNat - 48 + 52)
  else if c = '-' then some 62
  else if c = '_' then some 63
  else none

/-- Bytes contributed by one (possibly final, shortened) base64 quantum of
character values. -/
def b64Quantum : List Nat → List Nat
  | [a, b] => [a * 4 + b / 16]
  | [a, b, c] => [a * 4 + b / 16, b % 16 * 16 + c / 4]
  | [a, b, c, d] => [a * 4 + b / 16, b % 16 * 16 + c / 4, c % 4 * 64 + d]
  | _ => []

/-- Models `base64.RawURLEncoding.DecodeString` (unpadded base64url): fails on
a character outside the alphabet or on a remainder of one character. -/
def b64Decode : List Char → Option (List Nat)
  | [] => some []
  | [_] => none
  | [c0, c1] => do
    let v0 ← b64Val c0
    let v1 ← b64Val c1
    pure (b64Quantum [v0, v1])
  | [c0, c1, c2] => do
    let v0 ← b64Val c0
    let v1 ← b64Val c1
    let v2 ← b64Val c2
    pure (b64Quantum [v0, v1, v2])
  | c0 :: c1 :: c2 :: c3 :: rest => do
    let v0 ← b64Val c0
    let v1 ← b64Val c1
    let v2 ← b64Val c2
    let v3 ← b64Val c3
    let tail ← b64Decode rest
    pure (b64Quantum [v0, v1, v2, v3] ++ tail)

/-- String form of base64url decoding. -/
def rawURLDecode (s : String) : Option (List Nat) :=
  b64Decode s.toList

/-- Big-endian interpretation of a byte sequence, modelling
`new(big.Int).SetBytes`. -/
def bytesToNat (bs : List Nat) : Nat :=
  bs.foldl (fun acc b => acc * 256 + b) 0

/-- Wrap-around to a signed 64-bit value, modelling `big.Int.Int64` as
implemented (the Go documentation leaves the out-of-range case undefined). -/
def toInt64 (n : Nat) : Int :=
  if n % (2 ^ 64) ≥ 2 ^ 63 then (n % 2 ^ 64 : Int) - 2 ^ 64 else (n % 2 ^ 64 : Int)

/-- Translation of `Handler.parseKey`: reject non-RSA key types, base64url
decode the `n` and `e` components, and build the public key. -/
def parseKey (data : KeyData) : Except String RSAKey :=
  if data.kty ≠ "RSA" then
    Except.error ("key type '" ++ data.kty ++ "' isn't supported")
  else
    match rawURLDecode data.n with
    | none => Except.error "illegal base64 data"
    | some nb =>
      match rawURLDecode data.e with
      | none => Except.error "illegal base64 data"
      | some eb => Except.ok { n := bytesToNat nb, e := toInt64 (bytesToNat eb) }

/-- Translation of the per-record loop of `Handler.readKeys`, acting on the
already-unmarshalled key list: returns the updated key store and the log lines
emitted. The second emptiness guard inspects the `e` component again, exactly
as the source does, even though its log text speaks about `n`. -/
def readKeysData (km : KeyMap) : List KeyData → KeyMap × List String
  | [] => (km, [])
  | kd :: rest =>
    if kd.kid = "" then
      let p := readKeysData km rest
      (p.1, "Can't read key because 'kid' is empty" :: p.2)
    else if kd.kty = "" then
      let p := readKeysData km rest
      (p.1, ("Can't read key '" ++ kd.kid ++ "' because 'kty' is empty") :: p.2)
    else if kd.alg = "" then
      let p := readKeysData km rest
      (p.1, ("Can't read key '" ++ kd.kid ++ "' because 'alg' is empty") :: p.2)
    else if kd.e = "" then
      let p := readKeysData km rest
      (p.1, ("Can't read key '" ++ kd.kid ++ "' because 'e' is empty") :: p.2)
    else if kd.e = "" then
      let p := readKeysData km rest
      (p.1, ("Can't read key '" ++ kd.kid ++ "' because 'n' is empty") :: p.2)
    else
      match parseKey kd with
      | Except.error _ =>
        let p := readKeysData km rest
        (p.1, ("Key '" ++ kd.kid ++ "' will be ignored because it can't be parsed") :: p.2)
      | Except.ok key =>
        let p := readKeysData (KeyMap.store km kd.kid key) rest
        (p.1, ("Loaded key '" ++ kd.kid ++ "'") :: p.2)

/-- Environment carrying the outcome of the I/O performed for each key source:
reading and JSON-unmarshalling a keys file (`os.Open` plus `ioutil.ReadAll`
plus `json.Unmarshal`), and fetching and unmarshalling a keys URL (the HTTPS
GET of `loadKeysURL` plus the same reading steps). An `error` value stands for
a failure anywhere on that path. -/
structure LoadEnv where
  readFileKeys : String → Except String (List KeyData)
  fetchURLKeys : String → Except String (List KeyData)

/-- Translation of the file loop of `Handler.loadKeys` (with `loadKeysFile`
inlined through the environment): a failing source is logged and the remaining
sources are still processed. Returns the updated key store and log lines. -/
def loadKeysFromFiles (env : LoadEnv) (km : KeyMap) : List String → KeyMap × List String
  | [] => (km, [])
  | f :: rest =>
    match env.readFileKeys f with
    | Except.error e =>
      let p := loadKeysFromFiles env km rest
      (p.1, ("Loading keys from file '" ++ f ++ "'") ::
        ("Can't load keys from file '" ++ f ++ "': " ++ e) :: p.2)
    | Except.ok ks =>
      let q := readKeysData km ks
      let p := loadKeysFromFiles env q.1 rest
      (p.1, (("Loading keys from file '" ++ f ++ "'") :: q.2) ++ p.2)

/-- Translation of the URL loop of `Handler.loadKeys` (with `loadKeysURL`
inlined through the environment). -/
def loadKeysFromURLs (env : LoadEnv) (km : KeyMap) : List String → KeyMap × List String
  | [] => (km, [])
  | u :: rest =>
    match env.fetchURLKeys u with
    | Except.error e =>
      let p := loadKeysFromURLs env km rest
      (p.1, ("Loading keys from URL '" ++ u ++ "'") ::
        ("Can't load keys from URL '" ++ u ++ "': " ++ e) :: p.2)
    | Except.ok ks =>
      let q := readKeysData km ks
      let p := loadKeysFromURLs env q.1 rest
      (p.1, (("Loading keys from URL '" ++ u ++ "'") :: q.2) ++ p.2)

/-- Translation of `Handler.loadKeys`: process every configured file, then
every configured URL, and return `none` as the error, exactly as the source
ends in `return nil`. Result: updated key store, log lines, returned error. -/
def loadKeys (env : LoadEnv) (km : KeyMap) (files urls : List String) :
    KeyMap × List String × Option String :=
  let p1 := loadKeysFromFiles env km files
  let p2 := loadKeysFromURLs env p1.1 urls
  (p2.1, p1.2 ++ p2.2, none)

/-- The mutable per-handler key state: the key store and the timestamp of the
last reload attempt (seconds; the zero value models Go's zero `time.Time`). -/
structure KeyState where
  keys : KeyMap
  lastKeyReload : Int
deriving DecidableEq

/-- Translation of `Handler.selectKey`. `now` is the current instant in
seconds, so that `time.Since(h.lastKeyReload) > 1*time.Minute` becomes
`now - st.lastKeyReload > 60`; the single instant stands for both the
`time.Since` and the `time.Now()` calls. Returns the Go result
`(key, err)` as an `Except`, together with the updated state. -/
def selectKey (env : LoadEnv) (files urls : List String) (now : Int)
    (st : KeyState) (hdr : Claims) : Except String RSAKey × KeyState :=
  match lookupClaim hdr "kid" with
  | none => (Except.error "token doesn't have a 'kid' field in the header", st)
  | some (JVal.str kid) =>
    match KeyMap.load st.keys kid with
    | some key => (Except.ok key, st)
    | none =>
      if now - st.lastKeyReload > 60 then
        match loadKeys env st.keys files urls with
        | (keys2, _, some e) =>
          (Except.error e, { keys := keys2, lastKeyReload := st.lastKeyReload })
        | (keys2, _, none) =>
          let st2 : KeyState := { keys := keys2, lastKeyReload := now }
          match KeyMap.load keys2 kid with
          | some key => (Except.ok key, st2)
          | none =>
            (Except.error ("there is no key for key identifier '" ++ kid ++ "'"), st2)
      else (Except.error ("there is no key for key identifier '" ++ kid ++ "'"), st)
  | some v =>
    (Except.error ("token has a 'kid' field, but it is a " ++ goType v ++
      " instead of a string"), st)

/-- Transcription of the specified key-selection behaviour, written from the
words of the specification (look up; on a miss reload all configured sources
only when the last reload attempt was more than one minute ago, record the
reload time and retry the lookup exactly once; fail naming the missing
identifier; fail without lookup or reload when `kid` is absent or not a
string). Comparison target for the refinement theorem about `selectKey`. -/
def selectKeySpec (env : LoadEnv) (files urls : List String) (now : Int)
    (st : KeyState) (hdr : Claims) : Except String RSAKey × KeyState :=
  match lookupClaim hdr "kid" with
  | some (JVal.str kid) =>
    match KeyMap.load st.keys kid with
    | some key => (Except.ok key, st)
    | none =>
      if now - st.lastKeyReload > 60 then
        let reloaded := (loadKeys env st.keys files urls).1
        let st2 : KeyState := { keys := reloaded, lastKeyReload := now }
        match KeyMap.load reloaded kid with
        | some key => (Except.ok key, st2)
        | none =>
          (Except.error ("there is no key for key identifier '" ++ kid ++ "'"), st2)
      else (Except.error ("there is no key for key identifier '" ++ kid ++ "'"), st)
  | some v =>
    (Except.error ("token has a 'kid' field, but it is a " ++ goType v ++
      " instead of a string"), st)
  | none => (Except.error "token doesn't have a 'kid' field in the header", st)

/-- Translation of `Handler.checkClaim`: presence of a claim. The Go helper
sends the error response and returns `false`; the message it sends is returned
here as the `error` value (the caller below turns it into the response). -/
def checkClaim (claims : Claims) (name : String) : Except String JVal :=
  match lookupClaim claims name with
  | some v => Except.ok v
  | none =>
    Except.error ("Bearer token doesn't contain required claim '" ++ name ++ "'")

/-- Translation of `Handler.checkStringClaim`: the claim must exist and its
value must be a string. -/
def checkStringClaim (claims : Claims) (name : String) : Except String String :=
  match checkClaim claims name with
  | Except.error m => Except.error m
  | Except.ok (JVal.str s) => Except.ok s
  | Except.ok v =>
    Except.error ("Bearer token claim '" ++ name ++ "' contains incorrect text value '"
      ++ goFmtV v ++ "'")

/-- Translation of `Handler.checkTimeClaim`: the claim must exist and its
value must be a JSON number (Go: a `float64`); the result is
`time.Unix(int64(seconds), 0)`, modelled as the truncated integer. -/
def checkTimeClaim (claims : Claims) (name : String) : Except String Int :=
  match checkClaim claims name with
  | Except.error m => Except.error m
  | Except.ok (JVal.num x) => Except.ok (ratTrunc x)
  | Except.ok v =>
    Except.error ("Bearer token claim '" ++ name ++ "' contains incorrect time value '"
      ++ goFmtV v ++ "'")

/-- Translation of `Handler.checkClaims`: `typ` must be a string equal to
"Bearer" up to case, `iat` and `exp` must be JSON numbers; the first failure
wins. `none` means every check passed; `some m` is the error message sent. -/
def checkClaims (claims : Claims) : Option String :=
  match checkStringClaim claims "typ" with
  | Except.error m => some m
  | Except.ok t =>
    if eqFold t "Bearer" = true then
      match checkTimeClaim claims "iat" with
      | Except.error m => some m
      | Except.ok _ =>
        match checkTimeClaim claims "exp" with
        | Except.error m => some m
        | Except.ok _ => none
    else some ("Bearer token type '" ++ t ++ "' isn't supported")

/-- The structured error body assembled by `sendError` through the error
object builder. Modelled from the spec: the `errors` package is an external
collaborator whose builder simply stores the identifier, optional link,
optional code and reason verbatim. -/
structure ErrorBody where
  id : String
  href : Option String
  code : Option String
  reason : String
deriving DecidableEq

/-- The response written by `sendError`. Modelled from the spec: the external
`errors.SendError` writer emits the body with HTTP status 401 next to the
`WWW-Authenticate` header set by `sendError` itself. -/
structure ErrResponse where
  status : Nat
  wwwAuthenticate : String
  body : ErrorBody
deriving DecidableEq

/-- The service segment as rewritten for the error code:
`strings.ToUpper(strings.ReplaceAll(service, "_", "-"))`. -/
def goUpperDashed (s : String) : String :=
  (s.replace "_" "-").toUpper

/-- Translation of `Handler.sendError`: split the request path on `/`; with at
least four segments derive the link, the code and the realm from the second,
third and fourth segment, otherwise leave them absent and the realm empty. -/
def sendError (path reason : String) : ErrResponse :=
  match path.splitOn "/" with
  | _ :: seg1 :: seg2 :: seg3 :: _ =>
    { status := 401
      wwwAuthenticate := "Bearer realm=\"" ++ seg2 ++ "/" ++ seg3 ++ "\""
      body :=
        { id := "401"
          href := some ("/" ++ seg1 ++ "/" ++ seg2 ++ "/" ++ seg3 ++ "/errors/401")
          code := some (goUpperDashed seg2 ++ "-401")
          reason := reason } }
  | _ =>
    { status := 401
      wwwAuthenticate := "Bearer realm=\"\""
      body := { id := "401", href := none, code := none, reason := reason } }

/-- The access control list: claim name to compiled pattern (a compiled
regular expression is modelled by its match function), at most one pattern per
claim name. -/
abbrev AclMap := List (String × (String → Bool))

/-- Overwrite-or-insert on the ACL mapping, modelling Go map assignment. -/
def AclMap.store : AclMap → String → (String → Bool) → AclMap
  | [], c, pat => [(c, pat)]
  | (c0, p0) :: rest, c, pat =>
    if c0 == c then (c, pat) :: rest
    else (c0, p0) :: AclMap.store rest c pat

/-- The loop of `Handler.checkACL` over the ACL items: a claim that is absent
or not a string is skipped, the first pattern match returns `true`, and when
the items are exhausted the "Access denied" response for the request path is
sent and `false` returned. -/
def checkACLLoop (path : String) (claims : Claims) : AclMap → Bool × Option ErrResponse
  | [] => (false, some (sendError path "Access denied"))
  | (claim, pat) :: rest =>
    match lookupClaim claims claim with
    | some (JVal.str text) =>
      if pat text then (true, none) else checkACLLoop path claims rest
    | _ => checkACLLoop path claims rest

/-- Translation of `Handler.checkACL`: an empty ACL allows everything,
otherwise the items are scanned. -/
def checkACL (path : String) (items : AclMap) (claims : Claims) : Bool × Option ErrResponse :=
  if items.length = 0 then (true, none)
  else checkACLLoop path claims items

/-- Whether one ACL entry applies: its claim exists in the claim set, the
value is a string and the entry's pattern matches it. -/
def aclItemMatches (claims : Claims) (it : String × (String → Bool)) : Bool :=
  match lookupClaim claims it.1 with
  | some (JVal.str text) => it.2 text
  | _ => false

/-- Whether some ACL entry has a claim that exists in the claim set with a
string value matched by the entry's pattern (the condition the specification
states for `checkACL` returning `true` on a non-empty ACL). -/
def aclMatches (items : AclMap) (claims : Claims) : Bool :=
  items.any (aclItemMatches claims)

/-- Models the Go regular expression of `bearerRE`,
`^([a-zA-Z0-9]+)\s+(.*)$`, under RE2 semantics: the first group is forced to
be the maximal leading run of ASCII letters and digits (a shorter run would be
followed by another alphanumeric character, which `\s+` cannot match), `\s+`
greedily takes the maximal following run of `[\t\n\f\r ]`, and `(.*)$` accepts
exactly the newline-free remainder (`.` never matches a newline and a newline
left after the maximal whitespace run stays outside every shorter run, so no
backtracking can succeed either). Returns the two submatches. -/
def bearerMatch (s : String) : Option (String × String) :=
  let cs := s.toList
  let a := cs.takeWhile (fun c => c.isAlpha || c.isDigit)
  let r1 := cs.dropWhile (fun c => c.isAlpha || c.isDigit)
  let w := r1.takeWhile (fun c => c = '\t' || c = '\n' || c = '\x0c' || c = '\r' || c = ' ')
  let r2 := r1.dropWhile (fun c => c = '\t' || c = '\n' || c = '\x0c' || c = '\r' || c = ' ')
  if a ≠ [] ∧ w ≠ [] ∧ r2.all (fun c => c ≠ '\n') then
    some (String.mk a, String.mk r2)
  else none

/-- The per-request data the handler reads: the URL path and the value of the
`Authorization` header, where the empty string models an absent header exactly
as `http.Header.Get` reports it. -/
structure Request where
  path : String
  authorization : String
deriving DecidableEq

/-- Outcome of one `ServeHTTP` dispatch: either the downstream handler is
invoked (`tokenAttached` tells whether a validated token was first attached to
the request context) or an error response is written and the chain stops. -/
inductive Outcome where
  | next (tokenAttached : Bool)
  | errResp (resp : ErrResponse)
deriving DecidableEq

/-- Environment abstracting `Handler.checkToken`: the JWT library parse of the
bearer credential (signature verification through `selectKey` included),
returning either the decoded claim set or the user-facing message that
`checkToken` maps the library failure to. -/
structure TokEnv where
  checkTok : String → Except String Claims

/-- The handler configuration `ServeHTTP` consults: compiled public-path
patterns (modelled by their match functions) and the ACL items. -/
structure Handler where
  publicPaths : List (String → Bool)
  keysFiles : List String
  keysURLs : List String
  keys : KeyMap
  lastKeyReload : Int
  aclItems : AclMap

/-- Translation of `Handler.ServeHTTP`: public-path bypass, authorization
header extraction, bearer pattern match, scheme check, token verification
(abstracted by the environment), claim-shape check, ACL check, then dispatch
with the token attached. -/
def ServeHTTP (env : TokEnv) (h : Handler) (r : Request) : Outcome :=
  if h.publicPaths.any (fun p => p r.path) then Outcome.next false
  else if r.authorization = "" then
    Outcome.errResp (sendError r.path "Request doesn't contain the 'Authorization' header")
  else
    match bearerMatch r.authorization with
    | none =>
      Outcome.errResp (sendError r.path
        ("Authorization header '" ++ r.authorization ++ "' is malformed"))
    | some (typ, bearer) =>
      if eqFold typ "Bearer" = false then
        Outcome.errResp (sendError r.path
          ("Authentication type '" ++ typ ++ "' isn't supported"))
      else
        match env.checkTok bearer with
        | Except.error m => Outcome.errResp (sendError r.path m)
        | Except.ok claims =>
          match checkClaims claims with
          | some m => Outcome.errResp (sendError r.path m)
          | none =>
            let acl := checkACL r.path h.aclItems claims
            if acl.1 then Outcome.next true
            else Outcome.errResp (acl.2.getD (sendError r.path "Access denied"))

/-- The builder configuration, one field per Go builder field; the logger, the
certificate pool and the downstream handler only matter through their
presence, so they are modelled as optional unit values. -/
structure HandlerBuilder where
  logger : Option Unit := none
  publicPaths : List String := []
  keysFiles : List String := []
  keysURLs : List String := []
  keysCAs : Option Unit := none
  keysInsecure : Bool := false
  aclFiles : List String := []
  next : Option Unit := none
deriving DecidableEq

/-- Translation of `NewHandler`: the empty builder. -/
def NewHandler : HandlerBuilder := {}

/-- Translation of `HandlerBuilder.Logger`. -/
def HandlerBuilder.Logger (b : HandlerBuilder) (value : Unit) : HandlerBuilder :=
  { b with logger := some value }

/-- Translation of `HandlerBuilder.Public`. -/
def HandlerBuilder.Public (b : HandlerBuilder) (value : String) : HandlerBuilder :=
  { b with publicPaths := b.publicPaths ++ [value] }

/-- Translation of `HandlerBuilder.KeysFile`: a non-empty path is appended,
the empty string is ignored. -/
def HandlerBuilder.KeysFile (b : HandlerBuilder) (value : String) : HandlerBuilder :=
  if value ≠ "" then { b with keysFiles := b.keysFiles ++ [value] } else b

/-- Translation of `HandlerBuilder.KeysURL`: a non-empty address is appended,
the empty string is ignored. -/
def HandlerBuilder.KeysURL (b : HandlerBuilder) (value : String) : HandlerBuilder :=
  if value ≠ "" then { b with keysURLs := b.keysURLs ++ [value] } else b

/-- Translation of `HandlerBuilder.KeysCAs`. -/
def HandlerBuilder.KeysCAs (b : HandlerBuilder) (value : Unit) : HandlerBuilder :=
  { b with keysCAs := some value }

/-- Translation of `HandlerBuilder.KeysInsecure`. -/
def HandlerBuilder.KeysInsecure (b : HandlerBuilder) (value : Bool) : HandlerBuilder :=
  { b with keysInsecure := value }

/-- Translation of `HandlerBuilder.ACLFile`: a non-empty path is appended, the
empty string is ignored. -/
def HandlerBuilder.ACLFile (b : HandlerBuilder) (value : String) : HandlerBuilder :=
  if value ≠ "" then { b with aclFiles := b.aclFiles ++ [value] } else b

/-- Translation of `HandlerBuilder.Next`. -/
def HandlerBuilder.Next (b : HandlerBuilder) (value : Unit) : HandlerBuilder :=
  { b with next := some value }

/-- Result of `os.Stat` on an existing file, as far as `Build` reads it. -/
structure FileInfo where
  isRegular : Bool

/-- Result of `url.Parse`, as far as `Build` reads it. -/
structure URLInfo where
  scheme : String

/-- One ACL item as unmarshalled from a YAML document (the `aclItem` struct). -/
structure ACLItemData where
  claim : String
  pattern : String

/-- Environment carrying the results of the external calls `Build` makes:
`os.Stat`, `url.Parse`, `regexp.Compile` (a compiled expression is its match
function) and the read-plus-YAML-unmarshal step of `loadACLFile`. -/
structure BuildEnv where
  stat : String → Except String FileInfo
  urlParse : String → Except String URLInfo
  regexpCompile : String → Except String (String → Bool)
  readACLItems : String → Except String (List ACLItemData)

/-- The keys-files loop of `Build`: a stat failure or an irregular file stops
construction with the wrapped message. -/
def statKeysFiles (env : BuildEnv) : List String → Option String
  | [] => none
  | file :: rest =>
    match env.stat file with
    | Except.error e => some ("keys file '" ++ file ++ "' doesn't exist: " ++ e)
    | Except.ok info =>
      if info.isRegular then statKeysFiles env rest
      else some ("keys file '" ++ file ++ "' isn't a regular file")

/-- The keys-URLs loop of `Build`, with the error variable threaded exactly as
in the source: a parse failure returns immediately; a non-HTTPS scheme only
assigns the error variable (the `%v` of the then-nil parse error prints
`<nil>`) and the loop continues, while a later successful parse assignment
resets the variable to nil again. `error` models the early return, `ok`
carries the final value of the error variable. -/
def checkKeysURLs (env : BuildEnv) (err : Option String) :
    List String → Except String (Option String)
  | [] => Except.ok err
  | addr :: rest =>
    match env.urlParse addr with
    | Except.error e =>
      Except.error ("keys URL '" ++ addr ++ "' isn't a valid URL: " ++ e)
    | Except.ok parsed =>
      if eqFold parsed.scheme "https" = true then checkKeysURLs env none rest
      else
        checkKeysURLs env
          (some ("keys URL '" ++ addr ++ "' doesn't use the HTTPS protocol: <nil>")) rest

/-- The public-pattern compilation loop of `Build`: a compilation failure
returns its error immediately, and every successful `public[i], err = ...`
assignment resets the threaded error variable to nil, as in the source. -/
def compilePublic (env : BuildEnv) (err : Option String) :
    List String → Except String (Option String × List (String → Bool))
  | [] => Except.ok (err, [])
  | expr :: rest =>
    match env.regexpCompile expr with
    | Except.error e => Except.error e
    | Except.ok pat =>
      match compilePublic env none rest with
      | Except.error e => Except.error e
      | Except.ok (err2, pats) => Except.ok (err2, pat :: pats)

/-- The item loop of `HandlerBuilder.loadACLFile`: compile each pattern and
store it under its claim name, overwriting an earlier entry for the same name;
a compilation failure aborts the load. -/
def loadACLItems (env : BuildEnv) : List ACLItemData → AclMap → Except String AclMap
  | [], items => Except.ok items
  | it :: rest, items =>
    match env.regexpCompile it.pattern with
    | Except.error e => Except.error e
    | Except.ok pat => loadACLItems env rest (AclMap.store items it.claim pat)

/-- Translation of `HandlerBuilder.loadACLFile`: read and unmarshal the YAML
document (through the environment), then process its items. -/
def loadACLFile (env : BuildEnv) (file : String) (items : AclMap) : Except String AclMap :=
  match env.readACLItems file with
  | Except.error e => Except.error e
  | Except.ok list => loadACLItems env list items

/-- The ACL-files loop of `Build`, threading the error variable as in the
source: `err = b.loadACLFile(...)` resets it to nil on every success and
returns it on failure. -/
def loadACLFiles (env : BuildEnv) (err : Option String) (items : AclMap) :
    List String → Except String (Option String × AclMap)
  | [] => Except.ok (err, items)
  | f :: rest =>
    match loadACLFile env f items with
    | Except.error e => Except.error e
    | Except.ok items2 => loadACLFiles env none items2 rest

/-- Translation of `HandlerBuilder.Build`, preserving the source's flow around
the named return values `(handler, err)`: the mandatory-field and keys-source
checks and the keys-files loop return early, the keys-URLs loop only assigns
the error for a non-HTTPS scheme, and after the public-pattern and ACL loops
the handler is unconditionally constructed and returned next to whatever the
error variable holds at that point. -/
def HandlerBuilder.Build (b : HandlerBuilder) (env : BuildEnv) :
    Option Handler × Option String :=
  if b.logger.isNone then (none, some "logger is mandatory")
  else if b.next.isNone then (none, some "next handler is mandatory")
  else if b.keysFiles.length + b.keysURLs.length = 0 then
    (none, some "at least one keys file or one keys URL must be configured")
  else
    match statKeysFiles env b.keysFiles with
    | some e => (none, some e)
    | none =>
      match checkKeysURLs env none b.keysURLs with
      | Except.error e => (none, some e)
      | Except.ok err1 =>
        match compilePublic env err1 b.publicPaths with
        | Except.error e => (none, some e)
        | Except.ok (err2, pats) =>
          match loadACLFiles env err2 [] b.aclFiles with
          | Except.error e => (none, some e)
          | Except.ok (err3, items) =>
            (some { publicPaths := pats
                    keysFiles := b.keysFiles
                    keysURLs := b.keysURLs
                    keys := []
                    lastKeyReload := 0
                    aclItems := items }, err3)

/-- The error message mentions the given claim name in single quotes: the text
decomposes around the name, with a quote immediately before and after it. -/
def namesClaim (m name : String) : Prop :=
  ∃ pre post, m = pre ++ name ++ post
    ∧ pre.toList.getLast? = some '\''
    ∧ post.toList.head? = some '\''

/-- The claim-shape condition the specification states for `typ`: present,
a string, and equal to "Bearer" up to case. -/
def typShape (claims : Claims) : Bool :=
  match lookupClaim claims "typ" with
  | some (JVal.str t) => eqFold t "Bearer"
  | _ => false

/-- The claim-shape condition the specification states for `iat` and `exp`:
present and a JSON number. -/
def numShape (claims : Claims) (name : String) : Bool :=
  match lookupClaim claims name with
  | some (JVal.num _) => true
  | _ => false

/-- Every response built by `sendError` carries HTTP status 401. -/
theorem sendError_status (path reason : String) : (sendError path reason).status = 401 := by
  unfold sendError
  rcases path.splitOn "/" with _ | ⟨s0, _ | ⟨s1, _ | ⟨s2, _ | ⟨s3, tl⟩⟩⟩⟩ <;> rfl

/-- Every response built by `sendError` carries the given reason verbatim. -/
theorem sendError_reason (path reason : String) : (sendError path reason).body.reason = reason := by
  unfold sendError
  rcases path.splitOn "/" with _ | ⟨s0, _ | ⟨s1, _ | ⟨s2, _ | ⟨s3, tl⟩⟩⟩⟩ <;> rfl

/-- Demonstration environment for `Build`: `url.Parse` succeeds on the one
address used below with scheme "http", patterns compile, ACL documents fail
to read (no ACL file is configured in the demonstrations). -/
def demoBuildEnv : BuildEnv :=
  { stat := fun _ => Except.error "stat unavailable"
    urlParse := fun s =>
      if s = "http://example.com" then Except.ok { scheme := "http" }
      else Except.error "unsupported"
    regexpCompile := fun _ => Except.ok (fun _ => false)
    readACLItems := fun _ => Except.error "no ACL document" }

/-- A builder configured with a logger, a next handler and one keys URL whose
scheme is plain HTTP. -/
def demoBadURLBuilder : HandlerBuilder :=
  ((NewHandler.Logger ()).Next ()).KeysURL "http://example.com"

/-- The same builder with one public path pattern added after the bad URL. -/
def demoBadURLPublicBuilder : HandlerBuilder :=
  demoBadURLBuilder.Public "^/api/clusters_mgmt/v1/metrics$"

/-- C1: the claim fails on the code: after detecting a keys URL that does not
use HTTPS, `Build` assigns the error but is missing the early return, so it
continues and returns a fully constructed handler next to the error; and when
a public path is also configured, the later loop assignment overwrites the
error with nil, so `Build` returns the handler with no error at all. -/
theorem claim_C1 :
    ((demoBadURLBuilder.Build demoBuildEnv).1.isSome = true
      ∧ (demoBadURLBuilder.Build demoBuildEnv).2 =
          some "keys URL 'http://example.com' doesn't use the HTTPS protocol: <nil>")
  ∧ ((demoBadURLPublicBuilder.Build demoBuildEnv).1.isSome = true
      ∧ (demoBadURLPublicBuilder.Build demoBuildEnv).2 = none) :=
  ⟨⟨rfl, rfl⟩, ⟨rfl, rfl⟩⟩

/-- A key-set record whose `n` component is empty while every other required
field is present. -/
def demoEmptyNKey : KeyData :=
  { kid := "a", kty := "RSA", alg := "RS256", use := "sig", n := "", e := "AQAB" }

/-- C2: the claim fails on the code for the `n` component: the second
emptiness guard of `readKeys` inspects `e` again instead of `n`, so a record
with an empty `n` and all other fields present is not skipped: the empty
modulus decodes to zero bytes and the key is stored with modulus 0, and the
log reports it as loaded. -/
theorem claim_C2 :
    KeyMap.load (readKeysData [] [demoEmptyNKey]).1 "a" = some { n := 0, e := 65537 }
  ∧ (readKeysData [] [demoEmptyNKey]).2 = ["Loaded key 'a'"] :=
  ⟨rfl, rfl⟩

/-- C10: calling `KeysFile`, `KeysURL` or `ACLFile` with the empty string
leaves the builder configuration unchanged. -/
theorem claim_C10 (b : HandlerBuilder) :
    b.KeysFile "" = b ∧ b.KeysURL "" = b ∧ b.ACLFile "" = b := by
  refine ⟨?_, ?_, ?_⟩ <;>
    simp [HandlerBuilder.KeysFile, HandlerBuilder.KeysURL, HandlerBuilder.ACLFile]

/-- C9: every response emitted by `sendError` is a 401 whose body identifier
is the string "401" and whose reason is the given message; with at least four
"/"-separated path segments the body carries the derived link and code and
the authenticate header carries the service/version realm, with fewer
segments link and code are absent and the realm is empty. -/
theorem claim_C9 (path reason : String) :
    (sendError path reason).status = 401
  ∧ (sendError path reason).body.id = "401"
  ∧ (sendError path reason).body.reason = reason
  ∧ (match path.splitOn "/" with
     | _ :: seg1 :: seg2 :: seg3 :: _ =>
       (sendError path reason).body.href =
           some ("/" ++ seg1 ++ "/" ++ seg2 ++ "/" ++ seg3 ++ "/errors/401")
         ∧ (sendError path reason).body.code = some (goUpperDashed seg2 ++ "-401")
         ∧ (sendError path reason).wwwAuthenticate =
             "Bearer realm=\"" ++ seg2 ++ "/" ++ seg3 ++ "\""
     | _ =>
       (sendError path reason).body.href = none
         ∧ (sendError path reason).body.code = none
         ∧ (sendError path reason).wwwAuthenticate = "Bearer realm=\"\"") := by
  unfold sendError
  rcases hs : path.splitOn "/" with _ | ⟨s0, _ | ⟨s1, _ | ⟨s2, _ | ⟨s3, tl⟩⟩⟩⟩ <;> simp

/-- The ACL scan returns `true` without a response exactly when some item
matches, and otherwise sends "Access denied" for the request path. -/
theorem checkACLLoop_eq (path : String) (claims : Claims) (items : AclMap) :
    checkACLLoop path claims items =
      (if aclMatches items claims = true then (true, none)
       else (false, some (sendError path "Access denied"))) := by
  induction items with
  | nil => simp [checkACLLoop, aclMatches]
  | cons it rest ih =>
    obtain ⟨c, pat⟩ := it
    have hcons : aclMatches ((c, pat) :: rest) claims =
        (aclItemMatches claims (c, pat) || aclMatches rest claims) := by
      simp [aclMatches]
    rw [hcons]
    conv_lhs => unfold checkACLLoop
    cases hv : lookupClaim claims c with
    | none =>
      have h1 : aclItemMatches claims (c, pat) = false := by
        unfold aclItemMatches
        rw [hv]
      rw [h1]
      simpa using ih
    | some v =>
      cases v with
      | str text =>
        have h1 : aclItemMatches claims (c, pat) = pat text := by
          unfold aclItemMatches
          rw [hv]
        rw [h1]
        cases hp : pat text with
        | true => simp [hp]
        | false => simpa [hp] using ih
      | num x =>
        have h1 : aclItemMatches claims (c, pat) = false := by
          unfold aclItemMatches
          rw [hv]
        rw [h1]
        simpa using ih
      | bool b =>
        have h1 : aclItemMatches claims (c, pat) = false := by
          unfold aclItemMatches
          rw [hv]
        rw [h1]
        simpa using ih
      | null =>
        have h1 : aclItemMatches claims (c, pat) = false := by
          unfold aclItemMatches
          rw [hv]
        rw [h1]
        simpa using ih
      | arr xs =>
        have h1 : aclItemMatches claims (c, pat) = false := by
          unfold aclItemMatches
          rw [hv]
        rw [h1]
        simpa using ih
      | obj fs =>
        have h1 : aclItemMatches claims (c, pat) = false := by
          unfold aclItemMatches
          rw [hv]
        rw [h1]
        simpa using ih

/-- C4: with an empty ACL `checkACL` allows everything; with a non-empty ACL
it returns `true` with no response exactly when some (claim, pattern) entry
has a string-valued claim matched by its pattern, and otherwise returns
`false` next to the emitted response, which is a 401 with the fixed reason
"Access denied". -/
theorem claim_C4 (path : String) (items : AclMap) (claims : Claims) :
    match items with
    | [] => checkACL path items claims = (true, none)
    | _ :: _ =>
      ((checkACL path items claims).1 = true ↔ aclMatches items claims = true)
      ∧ checkACL path items claims =
          (if aclMatches items claims = true then (true, none)
           else (false, some (sendError path "Access denied")))
      ∧ (sendError path "Access denied").status = 401
      ∧ (sendError path "Access denied").body.reason = "Access denied" := by
  cases items with
  | nil => simp [checkACL]
  | cons it rest =>
    have h := checkACLLoop_eq path claims (it :: rest)
    have hACL : checkACL path (it :: rest) claims = checkACLLoop path claims (it :: rest) := by
      simp [checkACL]
    refine ⟨?_, ?_, sendError_status path "Access denied",
      sendError_reason path "Access denied"⟩
    · rw [hACL, h]
      cases hm : aclMatches (it :: rest) claims <;> simp [hm]
    · rw [hACL, h]

/-- C3: `selectKey` refines the specified behaviour: the store is consulted
first for the header's string key identifier; on a miss all configured
sources are reloaded only when the last reload attempt is more than one
minute old, the reload time is recorded and the lookup retried exactly once,
failing with the message naming the identifier; an absent or non-string
identifier fails with no lookup, no reload and no state change. -/
theorem claim_C3 (env : LoadEnv) (files urls : List String) (now : Int)
    (st : KeyState) (hdr : Claims) :
    selectKey env files urls now st hdr = selectKeySpec env files urls now st hdr := by
  unfold selectKey selectKeySpec
  cases hk : lookupClaim hdr "kid" with
  | none => rfl
  | some v =>
    cases v with
    | str kid =>
      cases hl : KeyMap.load st.keys kid with
      | some key => rfl
      | none =>
        by_cases hT : now - st.lastKeyReload > 60
        · simp only [if_pos hT]
          rfl
        · simp only [if_neg hT]
    | num x => rfl
    | bool b => rfl
    | null => rfl
    | arr xs => rfl
    | obj fs => rfl

/-- C8: `loadKeys` always returns nil to its caller, and a source that fails
to read or parse is merely logged: the key store it produces is the one
obtained from the remaining sources, and the log carries the failure line. -/
theorem claim_C8 (env : LoadEnv) (km : KeyMap) (files urls : List String) :
    (loadKeys env km files urls).2.2 = none
  ∧ (∀ f fs e, env.readFileKeys f = Except.error e →
      ((loadKeys env km (f :: fs) urls).1 = (loadKeys env km fs urls).1
        ∧ ("Can't load keys from file '" ++ f ++ "': " ++ e)
            ∈ (loadKeys env km (f :: fs) urls).2.1))
  ∧ (∀ u us e, env.fetchURLKeys u = Except.error e →
      ((loadKeys env km files (u :: us)).1 = (loadKeys env km files us).1
        ∧ ("Can't load keys from URL '" ++ u ++ "': " ++ e)
            ∈ (loadKeys env km files (u :: us)).2.1)) := by
  refine ⟨rfl, ?_, ?_⟩
  · intro f fs e h
    constructor
    · simp [loadKeys, loadKeysFromFiles, h]
    · simp [loadKeys, loadKeysFromFiles, h]
  · intro u us e h
    constructor
    · simp [loadKeys, loadKeysFromURLs, h]
    · simp [loadKeys, loadKeysFromURLs, h]

/-- Loader environment in which every file read and every URL fetch fails. -/
def demoLoadEnv : LoadEnv :=
  { readFileKeys := fun _ => Except.error "no such file or directory"
    fetchURLKeys := fun _ => Except.error "connection refused" }

/-- Witness for C8 at a concrete failing file source. -/
theorem claim_C8_witness :
    (loadKeys demoLoadEnv [] ["bad.json"] []).2.2 = none
  ∧ (loadKeys demoLoadEnv [] ["bad.json"] []).1 = (loadKeys demoLoadEnv [] [] []).1 :=
  ⟨(claim_C8 demoLoadEnv [] ["bad.json"] []).1,
   ((claim_C8 demoLoadEnv [] [] []).2.1 "bad.json" [] "no such file or directory" rfl).1⟩

/-- The scheme sub-case of C6: when the bearer pattern matched, a scheme
differing from "Bearer" in any letter case yields the unsupported-type 401
and the downstream handler is not invoked. -/
def C6SchemeCase (env : TokEnv) (h : Handler) (r : Request) (typ : String) : Prop :=
  if eqFold typ "Bearer" = true then True
  else
    ServeHTTP env h r =
      Outcome.errResp (sendError r.path
        ("Authentication type '" ++ typ ++ "' isn't supported"))
    ∧ (sendError r.path ("Authentication type '" ++ typ ++ "' isn't supported")).status = 401
    ∧ ∀ b, ServeHTTP env h r ≠ Outcome.next b

/-- The behaviour C6 states for a non-public request, per case on the
authorization header: absent header, header not matching the bearer pattern,
and a scheme differing from "Bearer" each produce the corresponding 401
response and never reach the downstream handler. -/
def C6Spec (env : TokEnv) (h : Handler) (r : Request) : Prop :=
  if r.authorization = "" then
    ServeHTTP env h r =
      Outcome.errResp (sendError r.path "Request doesn't contain the 'Authorization' header")
    ∧ (sendError r.path "Request doesn't contain the 'Authorization' header").status = 401
    ∧ ∀ b, ServeHTTP env h r ≠ Outcome.next b
  else
    match bearerMatch r.authorization with
    | none =>
      ServeHTTP env h r =
        Outcome.errResp (sendError r.path
          ("Authorization header '" ++ r.authorization ++ "' is malformed"))
      ∧ (sendError r.path
          ("Authorization header '" ++ r.authorization ++ "' is malformed")).status = 401
      ∧ ∀ b, ServeHTTP env h r ≠ Outcome.next b
    | some (typ, _) => C6SchemeCase env h r typ

/-- C6: for every request whose path matches no public pattern, a missing
authorization header, a header that does not match the bearer pattern, and a
scheme other than "Bearer" each yield the specific 401 response and the
downstream handler is not invoked. -/
theorem claim_C6 (env : TokEnv) (h : Handler) (r : Request)
    (hpub : h.publicPaths.any (fun p => p r.path) = false) :
    C6Spec env h r := by
  unfold C6Spec
  by_cases ha : r.authorization = ""
  · rw [if_pos ha]
    have hs : ServeHTTP env h r =
        Outcome.errResp (sendError r.path
          "Request doesn't contain the 'Authorization' header") := by
      simp [ServeHTTP, hpub, ha]
    refine ⟨hs, sendError_status _ _, ?_⟩
    intro b hb
    rw [hs] at hb
    exact Outcome.noConfusion hb
  · rw [if_neg ha]
    cases hb : bearerMatch r.authorization with
    | none =>
      have hs : ServeHTTP env h r =
          Outcome.errResp (sendError r.path
            ("Authorization header '" ++ r.authorization ++ "' is malformed")) := by
        simp [ServeHTTP, hpub, ha, hb]
      refine ⟨hs, sendError_status _ _, ?_⟩
      intro b hb2
      rw [hs] at hb2
      exact Outcome.noConfusion hb2
    | some tp =>
      obtain ⟨typ, cred⟩ := tp
      show C6SchemeCase env h r typ
      unfold C6SchemeCase
      cases hf : eqFold typ "Bearer" with
      | true => simp
      | false =>
        rw [if_neg (by simp)]
        have hs : ServeHTTP env h r =
            Outcome.errResp (sendError r.path
              ("Authentication type '" ++ typ ++ "' isn't supported")) := by
          simp [ServeHTTP, hpub, ha, hb, hf]
        refine ⟨hs, sendError_status _ _, ?_⟩
        intro b hb2
        rw [hs] at hb2
        exact Outcome.noConfusion hb2

/-- Environment in which the abstracted token check always fails; it is never
reached in the demonstrations below. -/
def demoTokEnv : TokEnv :=
  { checkTok := fun _ => Except.error "Bearer token is malformed" }

/-- A handler whose configuration has no public path. -/
def demoAuthHandler : Handler :=
  { publicPaths := []
    keysFiles := ["keys.json"]
    keysURLs := []
    keys := []
    lastKeyReload := 0
    aclItems := [] }

/-- A request without an Authorization header on a non-public path. -/
def demoNoAuthRequest : Request :=
  { path := "/api/clusters_mgmt/v1/clusters", authorization := "" }

/-- Witness for C6: a concrete non-public request with no header. -/
theorem claim_C6_witness :
    demoAuthHandler.publicPaths.any (fun p => p demoNoAuthRequest.path) = false
  ∧ C6Spec demoTokEnv demoAuthHandler demoNoAuthRequest :=
  ⟨rfl, claim_C6 demoTokEnv demoAuthHandler demoNoAuthRequest rfl⟩

/-- C7: a request whose path matches a configured public pattern is forwarded
to the downstream handler with no token attached, whatever the authorization
header holds and whatever the token-checking environment would answer. -/
theorem claim_C7 (env : TokEnv) (h : Handler) (r : Request)
    (hpub : h.publicPaths.any (fun p => p r.path) = true) :
    ServeHTTP env h r = Outcome.next false
  ∧ ∀ a env2, ServeHTTP env2 h { r with authorization := a } = Outcome.next false := by
  constructor
  · simp [ServeHTTP, hpub]
  · intro a env2
    simp [ServeHTTP, hpub]

/-- A handler with one public-path pattern. -/
def demoPublicHandler : Handler :=
  { publicPaths := [fun p => p == "/api/clusters_mgmt/v1/metrics"]
    keysFiles := ["keys.json"]
    keysURLs := []
    keys := []
    lastKeyReload := 0
    aclItems := [] }

/-- A request on the public path carrying a garbage authorization header. -/
def demoPublicRequest : Request :=
  { path := "/api/clusters_mgmt/v1/metrics", authorization := "garbage" }

/-- Witness for C7: the public request is forwarded untouched. -/
theorem claim_C7_witness :
    demoPublicHandler.publicPaths.any (fun p => p demoPublicRequest.path) = true
  ∧ ServeHTTP demoTokEnv demoPublicHandler demoPublicRequest = Outcome.next false :=
  ⟨rfl, (claim_C7 demoTokEnv demoPublicHandler demoPublicRequest rfl).1⟩

/-- A missing-claim message names its claim in quotes. -/
theorem namesClaim_missing (name : String) :
    namesClaim ("Bearer token doesn't contain required claim '" ++ name ++ "'") name :=
  ⟨"Bearer token doesn't contain required claim '", "'", rfl, rfl, rfl⟩

/-- A wrong-text-type message names its claim in quotes. -/
theorem namesClaim_text (name g : String) :
    namesClaim
      ("Bearer token claim '" ++ name ++ "' contains incorrect text value '" ++ g ++ "'")
      name :=
  ⟨"Bearer token claim '", "' contains incorrect text value '" ++ (g ++ "'"),
    by rw [String.append_assoc, String.append_assoc], rfl, rfl⟩

/-- A wrong-time-type message names its claim in quotes. -/
theorem namesClaim_time (name g : String) :
    namesClaim
      ("Bearer token claim '" ++ name ++ "' contains incorrect time value '" ++ g ++ "'")
      name :=
  ⟨"Bearer token claim '", "' contains incorrect time value '" ++ (g ++ "'"),
    by rw [String.append_assoc, String.append_assoc], rfl, rfl⟩

/-- The `exp` sub-case of C5: with `typ` and `iat` well-shaped, a well-shaped
`exp` lets every check pass, anything else fails naming `exp`. -/
def C5ExpCase (claims : Claims) : Prop :=
  match lookupClaim claims "exp" with
  | some (JVal.num _) => checkClaims claims = none
  | _ => ∃ m, checkClaims claims = some m ∧ namesClaim m "exp"

/-- The `iat` sub-case of C5: with `typ` well-shaped, a missing or non-number
`iat` fails naming `iat` before `exp` is ever considered. -/
def C5IatCase (claims : Claims) : Prop :=
  match lookupClaim claims "iat" with
  | some (JVal.num _) => C5ExpCase claims
  | _ => ∃ m, checkClaims claims = some m ∧ namesClaim m "iat"

/-- The `typ` sub-case of C5 when the claim is a string: a value equal to
"Bearer" up to case moves on to `iat`; any other string value fails. -/
def C5TypCase (claims : Claims) (t : String) : Prop :=
  if eqFold t "Bearer" = true then C5IatCase claims
  else ∃ m, checkClaims claims = some m

/-- C5: `checkClaims` succeeds exactly when `typ` is a string equal to
"Bearer" up to case and `iat` and `exp` are JSON numbers; the first missing or
wrongly-typed claim among them stops the checks with a message naming it. -/
theorem claim_C5 (claims : Claims) :
    (checkClaims claims = none ↔
      (typShape claims && numShape claims "iat" && numShape claims "exp") = true)
  ∧ (match lookupClaim claims "typ" with
     | some (JVal.str t) => C5TypCase claims t
     | _ => ∃ m, checkClaims claims = some m ∧ namesClaim m "typ") := by
  cases ht : lookupClaim claims "typ" with
  | none =>
    have hc : checkClaims claims =
        some ("Bearer token doesn't contain required claim '" ++ "typ" ++ "'") := by
      simp only [checkClaims, checkStringClaim, checkClaim, ht]
    have hts : typShape claims = false := by
      simp only [typShape, ht]
    constructor
    · rw [hc, hts]
      simp
    · exact ⟨_, hc, namesClaim_missing "typ"⟩
  | some v =>
    cases v with
    | str t =>
      have hcs : checkStringClaim claims "typ" = Except.ok t := by
        simp only [checkStringClaim, checkClaim, ht]
      have hts : typShape claims = eqFold t "Bearer" := by
        simp only [typShape, ht]
      refine ⟨?_, ?_⟩
      case _ =>
        cases hf : eqFold t "Bearer" with
        | false =>
          have hc : checkClaims claims =
              some ("Bearer token type '" ++ t ++ "' isn't supported") := by
            simp only [checkClaims, hcs, hf]
            rfl
          rw [hc, hts, hf]
          simp
        | true =>
          cases hi : lookupClaim claims "iat" with
          | none =>
            have hti : checkTimeClaim claims "iat" =
                Except.error ("Bearer token doesn't contain required claim '" ++ "iat" ++ "'") := by
              simp only [checkTimeClaim, checkClaim, hi]
            have hc : checkClaims claims =
                some ("Bearer token doesn't contain required claim '" ++ "iat" ++ "'") := by
              simp only [checkClaims, hcs, hf, hti]
              rfl
            have hni : numShape claims "iat" = false := by
              simp only [numShape, hi]
            rw [hc, hts, hf, hni]
            simp
          | some w =>
            cases w with
            | num x =>
              have hti : checkTimeClaim claims "iat" = Except.ok (ratTrunc x) := by
                simp only [checkTimeClaim, checkClaim, hi]
              have hni : numShape claims "iat" = true := by
                simp only [numShape, hi]
              cases he : lookupClaim claims "exp" with
              | none =>
                have hte : checkTimeClaim claims "exp" =
                    Except.error
                      ("Bearer token doesn't contain required claim '" ++ "exp" ++ "'") := by
                  simp only [checkTimeClaim, checkClaim, he]
                have hc : checkClaims claims =
                    some ("Bearer token doesn't contain required claim '" ++ "exp" ++ "'") := by
                  simp only [checkClaims, hcs, hf, hti, hte]
                  rfl
                have hne : numShape claims "exp" = false := by
                  simp only [numShape, he]
                rw [hc, hts, hf, hni, hne]
                simp
              | some u =>
                cases u with
                | num y =>
                  have hte : checkTimeClaim claims "exp" = Except.ok (ratTrunc y) := by
                    simp only [checkTimeClaim, checkClaim, he]
                  have hc : checkClaims claims = none := by
                    simp only [checkClaims, hcs, hf, hti, hte]
                    rfl
                  have hne : numShape claims "exp" = true := by
                    simp only [numShape, he]
                  rw [hc, hts, hf, hni, hne]
                  simp
                | str s2 =>
                  have hte : checkTimeClaim claims "exp" =
                      Except.error ("Bearer token claim '" ++ "exp" ++
                        "' contains incorrect time value '" ++ goFmtV (JVal.str s2) ++ "'") := by
                    simp only [checkTimeClaim, checkClaim, he]
                  have hc : checkClaims claims =
                      some ("Bearer token claim '" ++ "exp" ++
                        "' contains incorrect time value '" ++ goFmtV (JVal.str s2) ++ "'") := by
                    simp only [checkClaims, hcs, hf, hti, hte]
                    rfl
                  have hne : numShape claims "exp" = false := by
                    simp only [numShape, he]
                  rw [hc, hts, hf, hni, hne]
                  simp
                | bool b2 =>
                  have hte : checkTimeClaim claims "exp" =
                      Except.error ("Bearer token claim '" ++ "exp" ++
                        "' contains incorrect time value '" ++ goFmtV (JVal.bool b2) ++ "'") := by
                    simp only [checkTimeClaim, checkClaim, he]
                  have hc : checkClaims claims =
                      some ("Bearer token claim '" ++ "exp" ++
                        "' contains incorrect time value '" ++ goFmtV (JVal.bool b2) ++ "'") := by
                    simp only [checkClaims, hcs, hf, hti, hte]
                    rfl
                  have hne : numShape claims "exp" = false := by
                    simp only [numShape, he]
                  rw [hc, hts, hf, hni, hne]
                  simp
                | null =>
                  have hte : checkTimeClaim claims "exp" =
                      Except.error ("Bearer token claim '" ++ "exp" ++
                        "' contains incorrect time value '" ++ goFmtV JVal.null ++ "'") := by
                    simp only [checkTimeClaim, checkClaim, he]
                  have hc : checkClaims claims =
                      some ("Bearer token claim '" ++ "exp" ++
                        "' contains incorrect time value '" ++ goFmtV JVal.null ++ "'") := by
                    simp only [checkClaims, hcs, hf, hti, hte]
                    rfl
                  have hne : numShape claims "exp" = false := by
                    simp only [numShape, he]
                  rw [hc, hts, hf, hni, hne]
                  simp
                | arr xs =>
                  have hte : checkTimeClaim claims "exp" =
                      Except.error ("Bearer token claim '" ++ "exp" ++
                        "' contains incorrect time value '" ++ goFmtV (JVal.arr xs) ++ "'") := by
                    simp only [checkTimeClaim, checkClaim, he]
                  have hc : checkClaims claims =
                      some ("Bearer token claim '" ++ "exp" ++
                        "' contains incorrect time value '" ++ goFmtV (JVal.arr xs) ++ "'") := by
                    simp only [checkClaims, hcs, hf, hti, hte]
                    rfl
                  have hne : numShape claims "exp" = false := by
                    simp only [numShape, he]
                  rw [hc, hts, hf, hni, hne]
                  simp
                | obj fs =>
                  have hte : checkTimeClaim claims "exp" =
                      Except.error ("Bearer token claim '" ++ "exp" ++
                        "' contains incorrect time value '" ++ goFmtV (JVal.obj fs) ++ "'") := by
                    simp only [checkTimeClaim, checkClaim, he]
                  have hc : checkClaims claims =
                      some ("Bearer token claim '" ++ "exp" ++
                        "' contains incorrect time value '" ++ goFmtV (JVal.obj fs) ++ "'") := by
                    simp only [checkClaims, hcs, hf, hti, hte]
                    rfl
                  have hne : numShape claims "exp" = false := by
                    simp only [numShape, he]
                  rw [hc, hts, hf, hni, hne]
                  simp
            | str s1 =>
              have hti : checkTimeClaim claims "iat" =
                  Except.error ("Bearer token claim '" ++ "iat" ++
                    "' contains incorrect time value '" ++ goFmtV (JVal.str s1) ++ "'") := by
                simp only [checkTimeClaim, checkClaim, hi]
              have hc : checkClaims claims =
                  some ("Bearer token claim '" ++ "iat" ++
                    "' contains incorrect time value '" ++ goFmtV (JVal.str s1) ++ "'") := by
                simp only [checkClaims, hcs, hf, hti]
                rfl
              have hni : numShape claims "iat" = false := by
                simp only [numShape, hi]
              rw [hc, hts, hf, hni]
              simp
            | bool b1 =>
              have hti : checkTimeClaim claims "iat" =
                  Except.error ("Bearer token claim '" ++ "iat" ++
                    "' contains incorrect time value '" ++ goFmtV (JVal.bool b1) ++ "'") := by
                simp only [checkTimeClaim, checkClaim, hi]
              have hc : checkClaims claims =
                  some ("Bearer token claim '" ++ "iat" ++
                    "' contains incorrect time value '" ++ goFmtV (JVal.bool b1) ++ "'") := by
                simp only [checkClaims, hcs, hf, hti]
                rfl
              have hni : numShape claims "iat" = false := by
                simp only [numShape, hi]
              rw [hc, hts, hf, hni]
              simp
            | null =>
              have hti : checkTimeClaim claims "iat" =
                  Except.error ("Bearer token claim '" ++ "iat" ++
                    "' contains incorrect time value '" ++ goFmtV JVal.null ++ "'") := by
                simp only [checkTimeClaim, checkClaim, hi]
              have hc : checkClaims claims =
                  some ("Bearer token claim '" ++ "iat" ++
                    "' contains incorrect time value '" ++ goFmtV JVal.null ++ "'") := by
                simp only [checkClaims, hcs, hf, hti]
                rfl
              have hni : numShape claims "iat" = false := by
                simp only [numShape, hi]
              rw [hc, hts, hf, hni]
              simp
            | arr xs =>
              have hti : checkTimeClaim claims "iat" =
                  Except.error ("Bearer token claim '" ++ "iat" ++
                    "' contains incorrect time value '" ++ goFmtV (JVal.arr xs) ++ "'") := by
                simp only [checkTimeClaim, checkClaim, hi]
              have hc : checkClaims claims =
                  some ("Bearer token claim '" ++ "iat" ++
                    "' contains incorrect time value '" ++ goFmtV (JVal.arr xs) ++ "'") := by
                simp only [checkClaims, hcs, hf, hti]
                rfl
              have hni : numShape claims "iat" = false := by
                simp only [numShape, hi]
              rw [hc, hts, hf, hni]
              simp
            | obj fs =>
              have hti : checkTimeClaim claims "iat" =
                  Except.error ("Bearer token claim '" ++ "iat" ++
                    "' contains incorrect time value '" ++ goFmtV (JVal.obj fs) ++ "'") := by
                simp only [checkTimeClaim, checkClaim, hi]
              have hc : checkClaims claims =
                  some ("Bearer token claim '" ++ "iat" ++
                    "' contains incorrect time value '" ++ goFmtV (JVal.obj fs) ++ "'") := by
                simp only [checkClaims, hcs, hf, hti]
                rfl
              have hni : numShape claims "iat" = false := by
                simp only [numShape, hi]
              rw [hc, hts, hf, hni]
              simp
      case _ =>
        show C5TypCase claims t
        unfold C5TypCase
        cases hf : eqFold t "Bearer" with
        | false =>
          rw [if_neg (by simp)]
          have hc : checkClaims claims =
              some ("Bearer token type '" ++ t ++ "' isn't supported") := by
            simp only [checkClaims, hcs, hf]
            rfl
          exact ⟨_, hc⟩
        | true =>
          rw [if_pos rfl]
          show C5IatCase claims
          unfold C5IatCase
          cases hi : lookupClaim claims "iat" with
          | none =>
            have hc : checkClaims claims =
                some ("Bearer token doesn't contain required claim '" ++ "iat" ++ "'") := by
              have hti : checkTimeClaim claims "iat" =
                  Except.error
                    ("Bearer token doesn't contain required claim '" ++ "iat" ++ "'") := by
                simp only [checkTimeClaim, checkClaim, hi]
              simp only [checkClaims, hcs, hf, hti]
              rfl
            exact ⟨_, hc, namesClaim_missing "iat"⟩
          | some w =>
            cases w with
            | num x =>
              have hti : checkTimeClaim claims "iat" = Except.ok (ratTrunc x) := by
                simp only [checkTimeClaim, checkClaim, hi]
              show C5ExpCase claims
              unfold C5ExpCase
              cases he : lookupClaim claims "exp" with
              | none =>
                have hc : checkClaims claims =
                    some ("Bearer token doesn't contain required claim '" ++ "exp" ++ "'") := by
                  have hte : checkTimeClaim claims "exp" =
                      Except.error
                        ("Bearer token doesn't contain required claim '" ++ "exp" ++ "'") := by
                    simp only [checkTimeClaim, checkClaim, he]
                  simp only [checkClaims, hcs, hf, hti, hte]
                  rfl
                exact ⟨_, hc, namesClaim_missing "exp"⟩
              | some u =>
                cases u with
                | num y =>
                  have hte : checkTimeClaim claims "exp" = Except.ok (ratTrunc y) := by
                    simp only [checkTimeClaim, checkClaim, he]
                  simp only [checkClaims, hcs, hf, hti, hte]
                  rfl
                | str s2 =>
                  have hte : checkTimeClaim claims "exp" =
                      Except.error ("Bearer token claim '" ++ "exp" ++
                        "' contains incorrect time value '" ++ goFmtV (JVal.str s2) ++ "'") := by
                    simp only [checkTimeClaim, checkClaim, he]
                  have hc : checkClaims claims =
                      some ("Bearer token claim '" ++ "exp" ++
                        "' contains incorrect time value '" ++ goFmtV (JVal.str s2) ++ "'") := by
                    simp only [checkClaims, hcs, hf, hti, hte]
                    rfl
                  exact ⟨_, hc, namesClaim_time "exp" (goFmtV (JVal.str s2))⟩
                | bool b2 =>
                  have hte : checkTimeClaim claims "exp" =
                      Except.error ("Bearer token claim '" ++ "exp" ++
                        "' contains incorrect time value '" ++ goFmtV (JVal.bool b2) ++ "'") := by
                    simp only [checkTimeClaim, checkClaim, he]
                  have hc : checkClaims claims =
                      some ("Bearer token claim '" ++ "exp" ++
                        "' contains incorrect time value '" ++ goFmtV (JVal.bool b2) ++ "'") := by
                    simp only [checkClaims, hcs, hf, hti, hte]
                    rfl
                  exact ⟨_, hc, namesClaim_time "exp" (goFmtV (JVal.bool b2))⟩
                | null =>
                  have hte : checkTimeClaim claims "exp" =
                      Except.error ("Bearer token claim '" ++ "exp" ++
                        "' contains incorrect time value '" ++ goFmtV JVal.null ++ "'") := by
                    simp only [checkTimeClaim, checkClaim, he]
                  have hc : checkClaims claims =
                      some ("Bearer token claim '" ++ "exp" ++
                        "' contains incorrect time value '" ++ goFmtV JVal.null ++ "'") := by
                    simp only [checkClaims, hcs, hf, hti, hte]
                    rfl
                  exact ⟨_, hc, namesClaim_time "exp" (goFmtV JVal.null)⟩
                | arr xs =>
                  have hte : checkTimeClaim claims "exp" =
                      Except.error ("Bearer token claim '" ++ "exp" ++
                        "' contains incorrect time value '" ++ goFmtV (JVal.arr xs) ++ "'") := by
                    simp only [checkTimeClaim, checkClaim, he]
                  have hc : checkClaims claims =
                      some ("Bearer token claim '" ++ "exp" ++
                        "' contains incorrect time value '" ++ goFmtV (JVal.arr xs) ++ "'") := by
                    simp only [checkClaims, hcs, hf, hti, hte]
                    rfl
                  exact ⟨_, hc, namesClaim_time "exp" (goFmtV (JVal.arr xs))⟩
                | obj fs =>
                  have hte : checkTimeClaim claims "exp" =
                      Except.error ("Bearer token claim '" ++ "exp" ++
                        "' contains incorrect time value '" ++ goFmtV (JVal.obj fs) ++ "'") := by
                    simp only [checkTimeClaim, checkClaim, he]
                  have hc : checkClaims claims =
                      some ("Bearer token claim '" ++ "exp" ++
                        "' contains incorrect time value '" ++ goFmtV (JVal.obj fs) ++ "'") := by
                    simp only [checkClaims, hcs, hf, hti, hte]
                    rfl
                  exact ⟨_, hc, namesClaim_time "exp" (goFmtV (JVal.obj fs))⟩
            | str s1 =>
              have hti : checkTimeClaim claims "iat" =
                  Except.error ("Bearer token claim '" ++ "iat" ++
                    "' contains incorrect time value '" ++ goFmtV (JVal.str s1) ++ "'") := by
                simp only [checkTimeClaim, checkClaim, hi]
              have hc : checkClaims claims =
                  some ("Bearer token claim '" ++ "iat" ++
                    "' contains incorrect time value '" ++ goFmtV (JVal.str s1) ++ "'") := by
                simp only [checkClaims, hcs, hf, hti]
                rfl
              exact ⟨_, hc, namesClaim_time "iat" (goFmtV (JVal.str s1))⟩
            | bool b1 =>
              have hti : checkTimeClaim claims "iat" =
                  Except.error ("Bearer token claim '" ++ "iat" ++
                    "' contains incorrect time value '" ++ goFmtV (JVal.bool b1) ++ "'") := by
                simp only [checkTimeClaim, checkClaim, hi]
              have hc : checkClaims claims =
                  some ("Bearer token claim '" ++ "iat" ++
                    "' contains incorrect time value '" ++ goFmtV (JVal.bool b1) ++ "'") := by
                simp only [checkClaims, hcs, hf, hti]
                rfl
              exact ⟨_, hc, namesClaim_time "iat" (goFmtV (JVal.bool b1))⟩
            | null =>
              have hti : checkTimeClaim claims "iat" =
                  Except.error ("Bearer token claim '" ++ "iat" ++
                    "' contains incorrect time value '" ++ goFmtV JVal.null ++ "'") := by
                simp only [checkTimeClaim, checkClaim, hi]
              have hc : checkClaims claims =
                  some ("Bearer token claim '" ++ "iat" ++
                    "' contains incorrect time value '" ++ goFmtV JVal.null ++ "'") := by
                simp only [checkClaims, hcs, hf, hti]
                rfl
              exact ⟨_, hc, namesClaim_time "iat" (goFmtV JVal.null)⟩
            | arr xs =>
              have hti : checkTimeClaim claims "iat" =
                  Except.error ("Bearer token claim '" ++ "iat" ++
                    "' contains incorrect time value '" ++ goFmtV (JVal.arr xs) ++ "'") := by
                simp only [checkTimeClaim, checkClaim, hi]
              have hc : checkClaims claims =
                  some ("Bearer token claim '" ++ "iat" ++
                    "' contains incorrect time value '" ++ goFmtV (JVal.arr xs) ++ "'") := by
                simp only [checkClaims, hcs, hf, hti]
                rfl
              exact ⟨_, hc, namesClaim_time "iat" (goFmtV (JVal.arr xs))⟩
            | obj fs =>
              have hti : checkTimeClaim claims "iat" =
                  Except.error ("Bearer token claim '" ++ "iat" ++
                    "' contains incorrect time value '" ++ goFmtV (JVal.obj fs) ++ "'") := by
                simp only [checkTimeClaim, checkClaim, hi]
              have hc : checkClaims claims =
                  some ("Bearer token claim '" ++ "iat" ++
                    "' contains incorrect time value '" ++ goFmtV (JVal.obj fs) ++ "'") := by
                simp only [checkClaims, hcs, hf, hti]
                rfl
              exact ⟨_, hc, namesClaim_time "iat" (goFmtV (JVal.obj fs))⟩
    | num x =>
      have hc : checkClaims claims =
          some ("Bearer token claim '" ++ "typ" ++
            "' contains incorrect text value '" ++ goFmtV (JVal.num x) ++ "'") := by
        simp only [checkClaims, checkStringClaim, checkClaim, ht]
      have hts : typShape claims = false := by
        simp only [typShape, ht]
      constructor
      · rw [hc, hts]
        simp
      · exact ⟨_, hc, namesClaim_text "typ" (goFmtV (JVal.num x))⟩
    | bool b =>
      have hc : checkClaims claims =
          some ("Bearer token claim '" ++ "typ" ++
            "' contains incorrect text value '" ++ goFmtV (JVal.bool b) ++ "'") := by
        simp only [checkClaims, checkStringClaim, checkClaim, ht]
      have hts : typShape claims = false := by
        simp only [typShape, ht]
      constructor
      · rw [hc, hts]
        simp
      · exact ⟨_, hc, namesClaim_text "typ" (goFmtV (JVal.bool b))⟩
    | null =>
      have hc : checkClaims claims =
          some ("Bearer token claim '" ++ "typ" ++
            "' contains incorrect text value '" ++ goFmtV JVal.null ++ "'") := by
        simp only [checkClaims, checkStringClaim, checkClaim, ht]
      have hts : typShape claims = false := by
        simp only [typShape, ht]
      constructor
      · rw [hc, hts]
        simp
      · exact ⟨_, hc, namesClaim_text "typ" (goFmtV JVal.null)⟩
    | arr xs =>
      have hc : checkClaims claims =
          some ("Bearer token claim '" ++ "typ" ++
            "' contains incorrect text value '" ++ goFmtV (JVal.arr xs) ++ "'") := by
        simp only [checkClaims, checkStringClaim, checkClaim, ht]
      have hts : typShape claims = false := by
        simp only [typShape, ht]
      constructor
      · rw [hc, hts]
        simp
      · exact ⟨_, hc, namesClaim_text "typ" (goFmtV (JVal.arr xs))⟩
    | obj fs =>
      have hc : checkClaims claims =
          some ("Bearer token claim '" ++ "typ" ++
            "' contains incorrect text value '" ++ goFmtV (JVal.obj fs) ++ "'") := by
        simp only [checkClaims, checkStringClaim, checkClaim, ht]
      have hts : typShape claims = false := by
        simp only [typShape, ht]
      constructor
      · rw [hc, hts]
        simp
      · exact ⟨_, hc, namesClaim_text "typ" (goFmtV (JVal.obj fs))⟩

end OCMAuth
